import Mathlib

/-!
Verification of the result-aggregation pipeline, the citation-extraction step
and the error-surfacing behaviour of the paper-search backend
(`backend/services/search_service.py`, `backend/services/arxiv_knowledge_base.py`,
`backend/services/rag_service.py`, `backend/utils/arxiv_client.py`,
`backend/api/search.py`, `backend/api/paper.py`).

Modelling conventions:
* Python dict records are modelled by the fixed-field structure `Paper`.
  Every field the pipeline reads is read through `dict.get` with a falsy
  default, so an absent key and a present falsy value (empty string, `0`,
  empty list) are observationally identical throughout the modelled code;
  each field therefore carries the defaulted value directly.
* Python `set`s of identifiers are modelled as lists used only through
  membership.
* Scores are modelled in `ℚ` (the Python code mixes ints and small decimal
  floats; all quantities involved are exact decimals).
* Python's `sorted(..., key=f)` is the stable ascending sort by `f`; it is
  modelled by `List.mergeSort` with the corresponding comparison, which is
  sorted, a permutation, and stable — the three properties that determine
  the stable sort uniquely.
* String lowercasing is modelled per character via `Char.toLower` (ASCII);
  `s in t` is substring containment; `str.split()` splits on whitespace
  runs discarding empties; `int(...)` accepts an optionally signed digit
  string surrounded by whitespace.
-/

namespace PaperSearch

open scoped List

/-- A paper record as the backend passes it between pipeline stages.
Fields mirror the keys produced by `ArxivClient._parse_entry` plus the
`citation_count` key read (with default 0) by `SearchService._sort_results`. -/
structure Paper where
  arxiv_id : String := ""
  title : String := ""
  authors : List String := []
  abstract : String := ""
  published : String := ""
  categories : List String := []
  pdf_url : String := ""
  citation_count : Nat := 0
  deriving Repr, DecidableEq, Inhabited

/-- Python `str.lower()`, modelled per character over the ASCII range. -/
def lowerStr (s : String) : List Char :=
  s.data.map Char.toLower

/-- Containment of one character list in another, as Python's `in` on `str`. -/
def charsIn (needle : List Char) : List Char → Bool
  | [] => needle.isEmpty
  | c :: cs => needle.isPrefixOf (c :: cs) || charsIn needle cs

/-- Accumulator pass for `pySplit`: the accumulator holds the reversed
characters of the word being read. -/
def splitWsAux : List Char → List Char → List (List Char)
  | [], acc => if acc.isEmpty then [] else [acc.reverse]
  | c :: cs, acc =>
    if c.isWhitespace then
      if acc.isEmpty then splitWsAux cs [] else acc.reverse :: splitWsAux cs []
    else splitWsAux cs (c :: acc)

/-- Python `str.split()` with no argument: split on whitespace runs,
discarding empty pieces. -/
def pySplit (l : List Char) : List (List Char) :=
  splitWsAux l []

/-- Surrounding-whitespace strip, as Python `int` tolerates. -/
def pyTrim (l : List Char) : List Char :=
  ((l.dropWhile Char.isWhitespace).reverse.dropWhile Char.isWhitespace).reverse

/-- Python `int(s)`: optional surrounding whitespace, optional sign, then a
non-empty digit string; `none` models a raised `ValueError`. -/
def pyInt (l : List Char) : Option Int :=
  let t := pyTrim l
  let signed : Int × List Char :=
    match t with
    | '-' :: rest => (-1, rest)
    | '+' :: rest => (1, rest)
    | _ => (1, t)
  if signed.2 ≠ [] ∧ signed.2.all Char.isDigit then
    some (signed.1 * signed.2.foldl (fun n c => 10 * n + ((c.toNat : Int) - ('0'.toNat : Int))) 0)
  else
    none

/-- Truthiness of a Python `Optional[int]`: `None` and `0` are falsy. -/
def truthyInt : Option Int → Bool
  | none => false
  | some v => v != 0

/-- Truthiness of a Python `Optional[str]`: `None` and `""` are falsy. -/
def truthyStr : Option String → Bool
  | none => false
  | some s => s != ""

/-- The leading `-`-separated segment of the `published` field,
Python `published.split("-")[0]`: the characters before the first `-`. -/
def leadingSegment (published : String) : List Char :=
  published.data.takeWhile (fun c => c ≠ '-')

/-- `SearchService._check_year_filter` (identical in
`ArxivKnowledgeBase._check_year_filter`): empty `published` passes; a parse
failure is caught by the bare `except` and passes; otherwise the year is
compared against whichever bounds are truthy. -/
def checkYearFilter (r : Paper) (yearFrom yearTo : Option Int) : Bool :=
  if r.published = "" then true
  else
    match pyInt (leadingSegment r.published) with
    | none => true
    | some year =>
      if truthyInt yearFrom && decide (year < yearFrom.getD 0) then false
      else if truthyInt yearTo && decide (yearTo.getD 0 < year) then false
      else true

/-- `SearchService._apply_filters`: a truthy `category` keeps records whose
`categories` contain it; a truthy year bound keeps records passing
`_check_year_filter`. -/
def applyFilters (results : List Paper) (category : Option String)
    (yearFrom yearTo : Option Int) : List Paper :=
  let f1 := if truthyStr category then
      results.filter (fun r => r.categories.contains (category.getD ""))
    else results
  if truthyInt yearFrom || truthyInt yearTo then
    f1.filter (fun r => checkYearFilter r yearFrom yearTo)
  else f1

/-- First loop of `_merge_results`: every vector-search record with a truthy
`arxiv_id` is appended (no deduplication within this loop) and its id added
to the seen set. Returns the appended records and the grown seen set. -/
def addVectorResults : List Paper → List String → List Paper × List String
  | [], seen => ([], seen)
  | r :: rs, seen =>
    if r.arxiv_id = "" then addVectorResults rs seen
    else
      let step := addVectorResults rs (r.arxiv_id :: seen)
      (r :: step.1, step.2)

/-- Second loop of `_merge_results`, which is also verbatim the body of
`ArxivKnowledgeBase._deduplicate_papers`: a record is kept when its
`arxiv_id` is truthy and not yet seen, and its id is then added. -/
def dedupById : List Paper → List String → List Paper
  | [], _ => []
  | r :: rs, seen =>
    if r.arxiv_id ≠ "" ∧ r.arxiv_id ∉ seen then r :: dedupById rs (r.arxiv_id :: seen)
    else dedupById rs seen

/-- `SearchService._merge_results` (identical in
`ArxivKnowledgeBase._merge_results`): vector results first, then arXiv
results whose id was not seen. -/
def mergeResults (arxivResults vectorResults : List Paper) : List Paper :=
  let step := addVectorResults vectorResults []
  step.1 ++ dedupById arxivResults step.2

/-- `ArxivKnowledgeBase._deduplicate_papers`. -/
def deduplicatePapers (papers : List Paper) : List Paper :=
  dedupById papers []

/-- Composite score computed by the `sort_key` closure of
`SearchService._sort_results` (the negation applied there for descending
order is part of the comparison below, not of the score). -/
def score (r : Paper) (query : String) : ℚ :=
  let queryLower := lowerStr query
  let titleScore : ℚ := if charsIn queryLower (lowerStr r.title) then 10 else 0
  let abstractLower := lowerStr r.abstract
  let wordScore : ℚ :=
    ((pySplit queryLower).countP (fun w => charsIn w abstractLower) : ℚ)
  let citationScore : ℚ := (r.citation_count : ℚ) * (1 / 10)
  let yearScore : ℚ :=
    if r.published ≠ "" then
      match pyInt (leadingSegment r.published) with
      | some year => ((year : ℚ) - 2000) * (1 / 100)
      | none => 0
    else 0
  titleScore + wordScore + citationScore + yearScore

/-- Composite score computed by the `sort_key` closure of
`ArxivKnowledgeBase._sort_papers`: as `score` but with no citation term. -/
def scoreKB (r : Paper) (query : String) : ℚ :=
  let queryLower := lowerStr query
  let titleScore : ℚ := if charsIn queryLower (lowerStr r.title) then 10 else 0
  let abstractLower := lowerStr r.abstract
  let wordScore : ℚ :=
    ((pySplit queryLower).countP (fun w => charsIn w abstractLower) : ℚ)
  let yearScore : ℚ :=
    if r.published ≠ "" then
      match pyInt (leadingSegment r.published) with
      | some year => ((year : ℚ) - 2000) * (1 / 100)
      | none => 0
    else 0
  titleScore + wordScore + yearScore

/-- The composite score exactly as the specification describes it: a title
term, an abstract-token term and a recency term, and nothing else. -/
def scoreClaimed (r : Paper) (query : String) : ℚ :=
  let queryLower := lowerStr query
  let titleScore : ℚ := if charsIn queryLower (lowerStr r.title) then 10 else 0
  let wordScore : ℚ :=
    ((pySplit queryLower).countP (fun w => charsIn w (lowerStr r.abstract)) : ℚ)
  let yearScore : ℚ :=
    match pyInt (leadingSegment r.published) with
    | some year => ((year : ℚ) - 2000) * (1 / 100)
    | none => 0
  titleScore + wordScore + yearScore

/-- Comparison realising Python's `sorted(results, key=sort_key)` where
`sort_key` returns the negated `score`: ascending in `-score`, i.e. the
left record's score is at least the right one's. -/
def scoreLE (query : String) (a b : Paper) : Bool :=
  decide (score b query ≤ score a query)

/-- `SearchService._sort_results`: Python's stable sort, descending by
`score`. -/
def sortResults (results : List Paper) (query : String) : List Paper :=
  results.mergeSort (scoreLE query)

/-- Popularity score computed by the `popularity_score` closure of
`ArxivKnowledgeBase._sort_by_popularity`. -/
def popularityScore (r : Paper) : ℚ :=
  let titleScore : ℚ := if 20 ≤ r.title.length ∧ r.title.length ≤ 100 then 1 else 0
  let abstractScore : ℚ := if 500 < r.abstract.length then 1 else 0
  let categoryScore : ℚ := (min r.categories.length 3 : ℚ) * (1 / 2)
  let authorScore : ℚ := (min r.authors.length 5 : ℚ) * (1 / 5)
  titleScore + abstractScore + categoryScore + authorScore

/-- Comparison realising the stable descending sort by `popularityScore`. -/
def popularityLE (a b : Paper) : Bool :=
  decide (popularityScore b ≤ popularityScore a)

/-- `ArxivKnowledgeBase._sort_by_popularity`. -/
def sortByPopularity (papers : List Paper) : List Paper :=
  papers.mergeSort popularityLE

/-- `SearchService.search_papers`, steps 3 to 5: filter the primary (arXiv)
results, merge in the secondary (vector) results when the vector store is
available, sort, then paginate with `sorted[offset : offset + limit]` and
`total = len(sorted)`. -/
def searchPipeline (primary secondary : List Paper) (vectorAvailable : Bool)
    (category : Option String) (yearFrom yearTo : Option Int)
    (query : String) (offset limit : Nat) : List Paper × Nat :=
  let filtered := applyFilters primary category yearFrom yearTo
  let merged := if vectorAvailable then mergeResults filtered secondary else filtered
  let sorted := sortResults merged query
  ((sorted.drop offset).take limit, sorted.length)

/-- The aggregate operation of the specification: the pipeline with the
similarity index present, so that the merge step is exercised. -/
def aggregate (primary secondary : List Paper) (category : Option String)
    (yearFrom yearTo : Option Int) (query : String)
    (offset limit : Nat) : List Paper × Nat :=
  searchPipeline primary secondary true category yearFrom yearTo query offset limit

/-- The ranked list of `aggregate` before pagination. -/
def rankedList (primary secondary : List Paper) (category : Option String)
    (yearFrom yearTo : Option Int) (query : String) : List Paper :=
  sortResults (mergeResults (applyFilters primary category yearFrom yearTo) secondary) query

/-- Numeric value of a digit run, as Python `int` applied to the captured
group of `\[(\d+)\]`. -/
def natOfDigits (ds : List Char) : Nat :=
  ds.foldl (fun n c => 10 * n + (c.toNat - '0'.toNat)) 0

/-- All bracketed digit runs in the text, left to right, exactly as
`re.findall(r"\[(\d+)\]", answer)` finds them: at a `[`, a non-empty
maximal digit run directly followed by `]` is a match; scanning resumes
after a match, or one character further on otherwise. -/
def bracketNums : List Char → List Nat
  | [] => []
  | c :: cs =>
    if c = '[' then
      let ds := cs.takeWhile Char.isDigit
      match h : cs.drop ds.length with
      | ']' :: rest =>
        if ds.isEmpty then bracketNums cs
        else natOfDigits ds :: bracketNums rest
      | _ => bracketNums cs
    else bracketNums cs
termination_by l => l.length
decreasing_by
  all_goals simp_wf
  · have hlen := congrArg List.length h
    simp [List.length_drop] at hlen
    omega

/-- Python `sorted(set(...))` over the bracket numbers of the answer. -/
def citationIndices (answer : String) : List Nat :=
  (bracketNums answer.data).dedup.mergeSort (fun a b => decide (a ≤ b))

/-- `rag_service._build_citation`: a markdown link, with the pdf url falling
back to a url derived from the id when falsy. -/
def buildCitation (r : Paper) : String :=
  let url :=
    if r.pdf_url ≠ "" then r.pdf_url
    else if r.arxiv_id ≠ "" then "https://arxiv.org/pdf/" ++ r.arxiv_id ++ ".pdf"
    else ""
  "[" ++ r.title ++ "](" ++ url ++ ")"

/-- Citation mapping of `rag_service.answer_with_citations`: each in-range
index of the sorted distinct bracket numbers yields the citation of the
corresponding context entry. -/
def extractCitations (answer : String) (contexts : List Paper) : List String :=
  (citationIndices answer).filterMap (fun i =>
    if 1 ≤ i ∧ i ≤ contexts.length then some (buildCitation (contexts.getD (i - 1) default))
    else none)

/-- Citation extraction as the specification words it: for each index `i`
from `1` to `N` in ascending order, emit the citation of the `(i-1)`-th
context entry when `i` appears as a bracketed number in the answer. -/
def extractCitationsSpec (answer : String) (contexts : List Paper) : List String :=
  ((List.range contexts.length).map (fun k => k + 1)).filterMap (fun i =>
    if i ∈ bracketNums answer.data then some (buildCitation (contexts.getD (i - 1) default))
    else none)

/-- Outcome of one HTTP exchange with the external bibliographic API: a
network-level failure, or a response with a status code whose body parses
to the given entries. -/
inductive ApiResponse where
  | netError (msg : String)
  | http (status : Nat) (entries : List Paper)
  deriving Repr, DecidableEq

/-- `ArxivClient.search`: a network failure propagates as an exception, a
non-200 status raises, and the exception is re-raised after logging; a 200
response yields the parsed entries. -/
def clientSearch : ApiResponse → Except String (List Paper)
  | .netError msg => .error msg
  | .http status entries =>
    if status ≠ 200 then .error ("ArXiv API request failed: " ++ toString status)
    else .ok entries

/-- `ArxivClient.get_paper_by_id`: the same raises as `search`, but the
surrounding `except` catches every exception and returns `None`; a 200
response yields the first entry if any. -/
def getPaperById : ApiResponse → Option Paper
  | .netError _ => none
  | .http status entries =>
    if status ≠ 200 then none
    else entries.head?

/-- Result of a request handler: a payload or an HTTP error status with a
detail message. -/
inductive HttpResult (α : Type) where
  | ok (value : α)
  | error (status : Nat) (detail : String)
  deriving Repr, DecidableEq

/-- `GET /api/paper/{paper_id}` (`api/paper.py` + `PaperService`): a falsy
paper from the client becomes a 404; a successful fetch is returned. -/
def getPaperDetailsEndpoint (resp : ApiResponse) : HttpResult Paper :=
  match getPaperById resp with
  | none => .error 404 "paper not found"
  | some p => .ok p

/-- `POST /api/search` (`api/search.py` + `SearchService.search_papers`):
an exception from the client propagates to the route handler, which
converts it to a 500 carrying the message; on success the pipeline result
is returned. -/
def searchEndpoint (resp : ApiResponse) (secondary : List Paper)
    (vectorAvailable : Bool) (category : Option String)
    (yearFrom yearTo : Option Int) (query : String)
    (offset limit : Nat) : HttpResult (List Paper × Nat) :=
  match clientSearch resp with
  | .error msg => .error 500 ("search failed: " ++ msg)
  | .ok primary =>
    .ok (searchPipeline primary secondary vectorAvailable category yearFrom yearTo query offset limit)

/-- Primary pass of the merge as claim C1 words it: append every primary
record whose identifier was not already seen, tracking identifiers, with a
record lacking an identifier always appended and never tracked. -/
def mergeClaimedPrimary : List Paper → List String → List Paper
  | [], _ => []
  | r :: rs, seen =>
    if r.arxiv_id = "" then r :: mergeClaimedPrimary rs seen
    else if r.arxiv_id ∈ seen then mergeClaimedPrimary rs seen
    else r :: mergeClaimedPrimary rs (r.arxiv_id :: seen)

/-- The merge step as claim C1 words it: every secondary record first, in
order, tracking seen identifiers; then the primary pass. -/
def mergeClaimed (primary secondary : List Paper) : List Paper :=
  secondary ++ mergeClaimedPrimary primary
    (secondary.filterMap (fun r => if r.arxiv_id = "" then none else some r.arxiv_id))

/-- Primary pass of the merge as amended: a record lacking an identifier is
dropped instead of appended. -/
def mergeAmendedPrimary : List Paper → List String → List Paper
  | [], _ => []
  | r :: rs, seen =>
    if r.arxiv_id = "" then mergeAmendedPrimary rs seen
    else if r.arxiv_id ∈ seen then mergeAmendedPrimary rs seen
    else r :: mergeAmendedPrimary rs (r.arxiv_id :: seen)

/-- The merge step as amended: secondary records with a non-empty
identifier first, in order; then the primary records with a non-empty,
not-yet-seen identifier, in order; records lacking an identifier are
dropped from both lists. -/
def mergeAmended (primary secondary : List Paper) : List Paper :=
  let sec := secondary.filter (fun r => r.arxiv_id ≠ "")
  sec ++ mergeAmendedPrimary primary (sec.map (fun r => r.arxiv_id))

/-- No shared non-empty identifier between two records: the relation the
dedup invariant asserts pairwise on the output. -/
def distinctIds (a b : Paper) : Prop :=
  ¬(a.arxiv_id ≠ "" ∧ a.arxiv_id = b.arxiv_id)

/-- The trending/popularity score exactly as the specification words it. -/
def popScoreClaimed (r : Paper) : ℚ :=
  (if 20 ≤ r.title.length ∧ r.title.length ≤ 100 then 1 else 0)
  + (if 500 < r.abstract.length then 1 else 0)
  + (min r.categories.length 3 : ℚ) * (1 / 2)
  + (min r.authors.length 5 : ℚ) * (1 / 5)

/-! ### Theorems -/

/-- C6: the year filter fails open. A record whose `published` field has a
leading segment that does not parse as an integer (which subsumes an empty
`published`) passes `_check_year_filter` for every pair of bounds, and
`_apply_filters` retains it under any year range. -/
theorem checkYearFilter_fail_open (r : Paper) (yearFrom yearTo : Option Int)
    (h : pyInt (leadingSegment r.published) = none) :
    checkYearFilter r yearFrom yearTo = true ∧
    applyFilters [r] none yearFrom yearTo = [r] := by
  have hfilter : checkYearFilter r yearFrom yearTo = true := by
    unfold checkYearFilter
    split
    · rfl
    · rw [h]
  refine ⟨hfilter, ?_⟩
  unfold applyFilters
  simp only [truthyStr]
  split <;> simp [hfilter]

/-- Witness for `checkYearFilter_fail_open`: the record with
`published = "not-a-date"` is retained despite `year_from = 2020`. -/
theorem checkYearFilter_fail_open_witness :
    checkYearFilter { published := "not-a-date" } (some 2020) none = true ∧
    applyFilters [{ published := "not-a-date" }] none (some 2020) none
      = [{ published := "not-a-date" }] :=
  checkYearFilter_fail_open { published := "not-a-date" } (some 2020) none (by decide)

/-- The guard `if published:` in the code is redundant relative to the
parse: an empty `published` has an empty leading segment, which fails to
parse anyway. -/
lemma yearTerm_guard (r : Paper) :
    (if r.published ≠ "" then
      match pyInt (leadingSegment r.published) with
      | some year => ((year : ℚ) - 2000) * (1 / 100)
      | none => 0
    else 0)
    = (match pyInt (leadingSegment r.published) with
      | some year => ((year : ℚ) - 2000) * (1 / 100)
      | none => 0) := by
  by_cases hp : r.published = ""
  · have h0 : pyInt (leadingSegment "") = none := rfl
    simp [hp, h0]
  · simp [hp]

/-- The `_sort_results` score is the claimed three-term sum plus the
citation term. -/
lemma score_split (r : Paper) (q : String) :
    score r q = scoreClaimed r q + (r.citation_count : ℚ) * (1 / 10) := by
  simp only [score, scoreClaimed]
  rw [yearTerm_guard]
  ring

/-- The `_sort_papers` score is exactly the claimed three-term sum. -/
lemma scoreKB_eq_claimed (r : Paper) (q : String) :
    scoreKB r q = scoreClaimed r q := by
  simp only [scoreKB, scoreClaimed]
  rw [yearTerm_guard]

/-- C2 counterexample: for the record whose `citation_count` is 1 and the
empty rank query, the score computed by `_sort_results` differs from the
three-term formula of the claim (10.1 against 10), because the code adds a
`citation_count * 0.1` term the claim rules out. -/
theorem score_citation_cex :
    score { citation_count := 1 } "" ≠ scoreClaimed { citation_count := 1 } "" := by
  rw [score_split]
  intro hc
  have hz := add_right_eq_self.mp hc
  norm_num at hz

/-- C2 amended: the `_sort_results` composite score equals the claimed
three-term sum plus `citation_count * 0.1` (the `citation_count` key is
read with default 0), while the `_sort_papers` variant equals the claimed
sum exactly. -/
theorem score_decomposition (r : Paper) (q : String) :
    score r q = scoreClaimed r q + (r.citation_count : ℚ) * (1 / 10) ∧
    scoreKB r q = scoreClaimed r q :=
  ⟨score_split r q, scoreKB_eq_claimed r q⟩

/-- The records appended by the first merge loop are exactly the secondary
records with a non-empty identifier, in order. -/
lemma addVectorResults_fst (s : List Paper) (seen : List String) :
    (addVectorResults s seen).1 = s.filter (fun r => r.arxiv_id ≠ "") := by
  induction s generalizing seen with
  | nil => simp [addVectorResults]
  | cons r rs ih =>
    by_cases h : r.arxiv_id = "" <;> simp [addVectorResults, h, ih]

/-- Membership in the seen set grown by the first merge loop. -/
lemma addVectorResults_snd_mem (s : List Paper) (seen : List String) (x : String) :
    x ∈ (addVectorResults s seen).2 ↔
      x ∈ (s.filter (fun r => r.arxiv_id ≠ "")).map (fun r => r.arxiv_id) ∨ x ∈ seen := by
  induction s generalizing seen with
  | nil => simp [addVectorResults]
  | cons r rs ih =>
    by_cases h : r.arxiv_id = ""
    · simp [addVectorResults, h, ih]
    · have hstep : (addVectorResults (r :: rs) seen).2
        = (addVectorResults rs (r.arxiv_id :: seen)).2 := by
        simp [addVectorResults, h]
      rw [hstep, ih]
      rw [List.filter_cons_of_pos (by simpa using h), List.map_cons]
      simp only [List.mem_cons]
      tauto

/-- The second merge loop depends on the seen set only through membership. -/
lemma dedupById_congr (p : List Paper) (seen₁ seen₂ : List String)
    (h : ∀ x, x ∈ seen₁ ↔ x ∈ seen₂) :
    dedupById p seen₁ = dedupById p seen₂ := by
  induction p generalizing seen₁ seen₂ with
  | nil => rfl
  | cons r rs ih =>
    simp only [dedupById]
    by_cases hid : r.arxiv_id = ""
    · simp only [hid]
      simp
      exact ih seen₁ seen₂ h
    · by_cases hmem : r.arxiv_id ∈ seen₁
      · rw [if_neg (by simp [hmem]), if_neg (by simp [(h _).mp hmem])]
        exact ih seen₁ seen₂ h
      · rw [if_pos ⟨hid, hmem⟩, if_pos ⟨hid, fun hc => hmem ((h _).mpr hc)⟩]
        rw [ih (r.arxiv_id :: seen₁) (r.arxiv_id :: seen₂) (by simp [h])]

/-- The second merge loop is the amended primary pass. -/
lemma dedupById_eq_amendedPrimary (p : List Paper) (seen : List String) :
    dedupById p seen = mergeAmendedPrimary p seen := by
  induction p generalizing seen with
  | nil => rfl
  | cons r rs ih =>
    simp only [dedupById, mergeAmendedPrimary]
    by_cases hid : r.arxiv_id = ""
    · simp [hid, ih]
    · by_cases hmem : r.arxiv_id ∈ seen
      · rw [if_neg (by simp [hmem]), if_neg hid, if_pos hmem]
        exact ih seen
      · rw [if_pos ⟨hid, hmem⟩, if_neg hid, if_neg hmem, ih]

/-- The second merge loop yields a sublist of its input. -/
lemma dedupById_sublist (p : List Paper) (seen : List String) :
    dedupById p seen <+ p := by
  induction p generalizing seen with
  | nil => simp [dedupById]
  | cons r rs ih =>
    simp only [dedupById]
    split
    · exact (ih _).cons₂ r
    · exact (ih _).cons r

/-- Every record kept by the second merge loop has a non-empty identifier
that was not in the incoming seen set. -/
lemma dedupById_mem (p : List Paper) (seen : List String) (r : Paper)
    (h : r ∈ dedupById p seen) : r.arxiv_id ≠ "" ∧ r.arxiv_id ∉ seen := by
  induction p generalizing seen with
  | nil => simp [dedupById] at h
  | cons a as ih =>
    simp only [dedupById] at h
    split at h
    · rename_i hcond
      rcases List.mem_cons.mp h with heq | htail
      · subst heq; exact hcond
      · have := ih _ htail
        exact ⟨this.1, fun hc => this.2 (List.mem_cons_of_mem _ hc)⟩
    · exact ih _ h

/-- The identifiers kept by the second merge loop are pairwise distinct. -/
lemma dedupById_ids_nodup (p : List Paper) (seen : List String) :
    ((dedupById p seen).map (fun r => r.arxiv_id)).Nodup := by
  induction p generalizing seen with
  | nil => simp [dedupById]
  | cons a as ih =>
    simp only [dedupById]
    split
    · simp only [List.map_cons, List.nodup_cons]
      refine ⟨?_, ih _⟩
      intro hc
      rcases List.mem_map.mp hc with ⟨r, hr, hid⟩
      exact (dedupById_mem _ _ _ hr).2 (by rw [hid]; exact List.mem_cons_self _ _)
    · exact ih _

/-- The code's merge is the amended merge. -/
lemma mergeResults_eq_amended (p s : List Paper) :
    mergeResults p s = mergeAmended p s := by
  simp only [mergeResults, mergeAmended]
  rw [addVectorResults_fst]
  have hseen : ∀ x, x ∈ (addVectorResults s []).2 ↔
      x ∈ (s.filter (fun r => r.arxiv_id ≠ "")).map (fun r => r.arxiv_id) := by
    intro x
    rw [addVectorResults_snd_mem]
    simp
  rw [dedupById_congr _ _ _ hseen, dedupById_eq_amendedPrimary]

/-- C1 counterexample: the secondary record lacking an identifier is
dropped by `_merge_results`, while the claim requires it to be appended;
the code's merge and the claim's merge differ at this input. -/
theorem merge_unidentified_cex :
    mergeResults [] [{ title := "untracked" }] ≠
      mergeClaimed [] [{ title := "untracked" }] ∧
    mergeResults [] [{ title := "untracked" }] = [] ∧
    mergeClaimed [] [{ title := "untracked" }] = [{ title := "untracked" }] := by
  refine ⟨?_, rfl, rfl⟩
  decide

/-- C1 amended: `_merge_results` admits every secondary record having a
non-empty identifier first, in its given order, tracking seen identifiers,
then appends every primary record whose non-empty identifier was not
already seen, in its given order; records lacking an identifier (empty or
absent) are dropped from both lists rather than appended. -/
theorem merge_characterization (primary secondary : List Paper) :
    mergeResults primary secondary = mergeAmended primary secondary :=
  mergeResults_eq_amended primary secondary

/-- Membership in the filtered list implies membership in the input and
both filter conditions. -/
lemma applyFilters_mem (results : List Paper) (cat : Option String)
    (yf yt : Option Int) (r : Paper) (h : r ∈ applyFilters results cat yf yt) :
    r ∈ results ∧
      (truthyStr cat = true → cat.getD "" ∈ r.categories) ∧
      ((truthyInt yf || truthyInt yt) = true → checkYearFilter r yf yt = true) := by
  by_cases hy : (truthyInt yf || truthyInt yt) = true <;>
    by_cases hc : truthyStr cat = true <;>
      simp [applyFilters, hy, hc, List.mem_filter] at h <;>
        tauto

/-- The empty list passes through the filters unchanged. -/
lemma applyFilters_nil (cat : Option String) (yf yt : Option Int) :
    applyFilters [] cat yf yt = [] := by
  simp [applyFilters]

/-- Membership in the merge output: a record comes from the secondary list
or from the primary list. -/
lemma mergeResults_mem (p s : List Paper) (r : Paper)
    (h : r ∈ mergeResults p s) : r ∈ s ∨ r ∈ p := by
  rcases List.mem_append.mp h with hs | hp
  · rw [addVectorResults_fst] at hs
    exact Or.inl (List.mem_of_mem_filter hs)
  · exact Or.inr ((dedupById_sublist _ _).subset hp)

/-- Membership in the page of `aggregate` implies membership in the merged
list. -/
lemma aggregate_page_mem (primary secondary : List Paper) (category : Option String)
    (yf yt : Option Int) (q : String) (off lim : Nat) (r : Paper)
    (h : r ∈ (aggregate primary secondary category yf yt q off lim).1) :
    r ∈ mergeResults (applyFilters primary category yf yt) secondary := by
  have h1 : r ∈ sortResults (mergeResults (applyFilters primary category yf yt) secondary) q :=
    (List.drop_subset _ _) ((List.take_subset _ _) h)
  exact List.mem_mergeSort.mp h1

/-- Evaluation of `aggregate` on an empty primary list and a one-record
secondary list: the secondary record is returned untouched. -/
lemma aggregate_single_secondary (rx : Paper) (category : Option String)
    (yf yt : Option Int) (lim : Nat) (hlim : 0 < lim) (hid : rx.arxiv_id ≠ "") :
    (aggregate [] [rx] category yf yt "" 0 lim).1 = [rx] := by
  have hmerge : mergeResults (applyFilters [] category yf yt) [rx] = [rx] := by
    rw [applyFilters_nil]
    simp [mergeResults, addVectorResults, dedupById, hid]
  show ((sortResults (mergeResults (applyFilters [] category yf yt) [rx]) "").drop 0).take lim
      = [rx]
  rw [hmerge]
  simp [sortResults]
  omega

/-- C3 counterexample: a similarity-index record whose categories do not
meet the provided category filter still appears in the output of
`aggregate`, because `search_papers` applies `_apply_filters` to the
primary (arXiv) results only, before the merge. -/
theorem aggregate_unfiltered_secondary_cex :
    (aggregate [] [{ arxiv_id := "x", categories := ["cs.XX"] }]
        (some "cs.LG") none none "" 0 10).1
      = [{ arxiv_id := "x", categories := ["cs.XX"] }] ∧
    ("cs.LG" ∈ ({ arxiv_id := "x", categories := ["cs.XX"] } : Paper).categories → False) := by
  constructor
  · exact aggregate_single_secondary _ _ _ _ _ (by omega) (by decide)
  · decide

/-- C3 amended: every record in the output of `aggregate` either came from
the secondary (similarity-index) list — which `search_papers` never
filters — or satisfies both provided filters. -/
theorem aggregate_output_filtered_or_secondary (primary secondary : List Paper)
    (category : Option String) (yf yt : Option Int) (q : String)
    (off lim : Nat) (r : Paper)
    (hr : r ∈ (aggregate primary secondary category yf yt q off lim).1) :
    r ∈ secondary ∨
      ((truthyStr category = true → category.getD "" ∈ r.categories) ∧
       ((truthyInt yf || truthyInt yt) = true → checkYearFilter r yf yt = true)) := by
  have hm := aggregate_page_mem primary secondary category yf yt q off lim r hr
  rcases mergeResults_mem _ _ _ hm with hs | hp
  · exact Or.inl hs
  · exact Or.inr (applyFilters_mem _ _ _ _ _ hp).2

/-- Witness for `aggregate_output_filtered_or_secondary` at the
counterexample input of C3: the record is accounted for as a secondary
record. -/
theorem aggregate_output_filtered_or_secondary_witness :
    ({ arxiv_id := "x", categories := ["cs.XX"] } : Paper)
        ∈ [({ arxiv_id := "x", categories := ["cs.XX"] } : Paper)] ∨
      ((truthyStr (some "cs.LG") = true →
          (some "cs.LG").getD "" ∈ ({ arxiv_id := "x", categories := ["cs.XX"] } : Paper).categories) ∧
       ((truthyInt none || truthyInt none) = true →
          checkYearFilter { arxiv_id := "x", categories := ["cs.XX"] } none none = true)) :=
  aggregate_output_filtered_or_secondary [] [{ arxiv_id := "x", categories := ["cs.XX"] }]
    (some "cs.LG") none none "" 0 10 { arxiv_id := "x", categories := ["cs.XX"] }
    (by
      rw [aggregate_single_secondary _ _ _ _ _ (by omega) (by decide)]
      exact List.mem_singleton.mpr rfl)

/-- Symmetry of `distinctIds`. -/
lemma distinctIds_symm : ∀ {a b : Paper}, distinctIds a b → distinctIds b a := by
  intro a b hab hba
  exact hab ⟨fun hc => hba.1 (hba.2.trans hc), hba.2.symm⟩

/-- The comparison of the rank sort is transitive. -/
lemma scoreLE_trans (q : String) :
    ∀ a b c : Paper, scoreLE q a b → scoreLE q b c → scoreLE q a c := by
  intro a b c hab hbc
  simp only [scoreLE, decide_eq_true_eq] at *
  exact le_trans hbc hab

/-- The comparison of the rank sort is total. -/
lemma scoreLE_total (q : String) : ∀ a b : Paper, scoreLE q a b || scoreLE q b a := by
  intro a b
  simp only [scoreLE, Bool.or_eq_true, decide_eq_true_eq]
  exact le_total (score b q) (score a q)

/-- Provided the secondary list itself has pairwise distinct non-empty
identifiers, the merge output has them too. -/
lemma mergeResults_pairwise (p s : List Paper)
    (hsec : s.Pairwise distinctIds) :
    (mergeResults p s).Pairwise distinctIds := by
  rw [mergeResults, List.pairwise_append]
  refine ⟨?_, ?_, ?_⟩
  · rw [addVectorResults_fst]
    exact hsec.filter _
  · have hnd := dedupById_ids_nodup p (addVectorResults s []).2
    have := List.pairwise_map.mp hnd
    exact this.imp (fun h hc => h hc.2)
  · intro a ha b hb
    rw [addVectorResults_fst] at ha
    have hbmem := dedupById_mem _ _ _ hb
    intro hc
    apply hbmem.2
    rw [addVectorResults_snd_mem]
    left
    exact List.mem_map.mpr ⟨a, ha, hc.2⟩

/-- The distinct-identifier property survives aggregation's sort and
pagination. -/
lemma aggregate_pairwise_of_merge (primary secondary : List Paper)
    (category : Option String) (yf yt : Option Int) (q : String) (off lim : Nat)
    (hm : (mergeResults (applyFilters primary category yf yt) secondary).Pairwise distinctIds) :
    (aggregate primary secondary category yf yt q off lim).1.Pairwise distinctIds := by
  have hperm : sortResults (mergeResults (applyFilters primary category yf yt) secondary) q
      ~ mergeResults (applyFilters primary category yf yt) secondary :=
    List.mergeSort_perm _ _
  have hsorted := (hperm.pairwise_iff (fun h => distinctIds_symm h)).mpr hm
  exact List.Pairwise.sublist ((List.take_sublist _ _).trans (List.drop_sublist _ _)) hsorted

/-- Evaluation of the rank sort on a two-copy list: the comparison is
reflexive on equal records, so the list is already sorted. -/
lemma sortResults_pair_self (rx : Paper) (q : String) :
    sortResults [rx, rx] q = [rx, rx] := by
  apply List.mergeSort_of_sorted
  simp [List.pairwise_cons, scoreLE]

/-- C4 counterexample: when the similarity index returns two records with
the same non-empty identifier, both survive `aggregate` — the first merge
loop never deduplicates secondary records against each other — so the
output does contain two records sharing a non-empty identifier. -/
theorem aggregate_dup_ids_cex :
    ¬ ((aggregate [] [{ arxiv_id := "x" }, { arxiv_id := "x" }]
          none none none "" 0 10).1.Pairwise distinctIds) := by
  have hmerge : mergeResults (applyFilters [] none none none)
      [{ arxiv_id := "x" }, { arxiv_id := "x" }]
      = [{ arxiv_id := "x" }, { arxiv_id := "x" }] := rfl
  have hpage : (aggregate [] [{ arxiv_id := "x" }, { arxiv_id := "x" }]
      none none none "" 0 10).1 = [{ arxiv_id := "x" }, { arxiv_id := "x" }] := by
    show ((sortResults (mergeResults (applyFilters [] none none none)
        [{ arxiv_id := "x" }, { arxiv_id := "x" }]) "").drop 0).take 10 = _
    rw [hmerge, sortResults_pair_self]
    rfl
  rw [hpage]
  intro h
  have := (List.pairwise_cons.mp h).1 { arxiv_id := "x" } (List.mem_cons_self _ _)
  exact this ⟨by decide, rfl⟩

/-- C4 amended: provided the secondary (similarity-index) list itself
contains no two records sharing a non-empty identifier, the output of
`aggregate` contains no two records sharing a non-empty identifier. The
unconditional claim fails only because the first merge loop does not
deduplicate secondary records against each other. -/
theorem aggregate_dedup_invariant (primary secondary : List Paper)
    (category : Option String) (yf yt : Option Int) (q : String) (off lim : Nat)
    (hsec : secondary.Pairwise distinctIds) :
    (aggregate primary secondary category yf yt q off lim).1.Pairwise distinctIds :=
  aggregate_pairwise_of_merge primary secondary category yf yt q off lim
    (mergeResults_pairwise _ _ hsec)

/-- Witness for `aggregate_dedup_invariant` on a two-record secondary list
with distinct identifiers. -/
theorem aggregate_dedup_invariant_witness :
    (aggregate [{ arxiv_id := "a" }] [{ arxiv_id := "b" }, { arxiv_id := "c" }]
        none none none "" 0 10).1.Pairwise distinctIds :=
  aggregate_dedup_invariant [{ arxiv_id := "a" }] [{ arxiv_id := "b" }, { arxiv_id := "c" }]
    none none none "" 0 10
    (by simp [List.pairwise_cons, distinctIds])

/-- C5: the rank step's descending sort is stable: two records with equal
composite score that stand in a given relative order in the merge output
stand in the same relative order in the ranked list of `aggregate`. -/
theorem rank_sort_stable (primary secondary : List Paper) (category : Option String)
    (yf yt : Option Int) (q : String) (a b : Paper)
    (heq : score a q = score b q)
    (hsub : [a, b] <+ mergeResults (applyFilters primary category yf yt) secondary) :
    [a, b] <+ rankedList primary secondary category yf yt q := by
  unfold rankedList sortResults
  exact List.pair_sublist_mergeSort (scoreLE_trans q) (scoreLE_total q)
    (by simp [scoreLE, heq]) hsub

/-- Witness for `rank_sort_stable` on two copies of one record. -/
theorem rank_sort_stable_witness :
    [({ arxiv_id := "x" } : Paper), { arxiv_id := "x" }]
      <+ rankedList [] [{ arxiv_id := "x" }, { arxiv_id := "x" }] none none none "" :=
  rank_sort_stable [] [{ arxiv_id := "x" }, { arxiv_id := "x" }] none none none ""
    { arxiv_id := "x" } { arxiv_id := "x" } rfl (by exact List.Sublist.refl _)

/-- C7: `aggregate` paginates the ranked list: `total` is the full ranked
length, the page is `ranked[offset : offset + limit]`, an out-of-range
offset yields an empty page, a zero limit yields an empty page, and empty
inputs yield an empty page with total 0. -/
theorem aggregate_pagination (primary secondary : List Paper) (category : Option String)
    (yf yt : Option Int) (q : String) (off lim : Nat) :
    (aggregate primary secondary category yf yt q off lim).2
        = (rankedList primary secondary category yf yt q).length ∧
    (aggregate primary secondary category yf yt q off lim).1
        = ((rankedList primary secondary category yf yt q).drop off).take lim ∧
    ((rankedList primary secondary category yf yt q).length ≤ off →
      (aggregate primary secondary category yf yt q off lim).1 = []) ∧
    (aggregate primary secondary category yf yt q off 0).1 = [] ∧
    aggregate [] [] category yf yt q off lim = ([], 0) := by
  refine ⟨rfl, rfl, ?_, ?_, ?_⟩
  · intro h
    show ((rankedList primary secondary category yf yt q).drop off).take lim = []
    rw [List.drop_eq_nil_of_le h]
    simp
  · show ((rankedList primary secondary category yf yt q).drop off).take 0 = []
    simp
  · have hnil : rankedList [] [] category yf yt q = [] := by
      rw [rankedList, applyFilters_nil]
      simp [sortResults, mergeResults, addVectorResults, dedupById]
    show (((rankedList [] [] category yf yt q).drop off).take lim,
        (rankedList [] [] category yf yt q).length) = ([], 0)
    rw [hnil]
    simp

/-- Witness for `aggregate_pagination`: the out-of-range-offset conjunct at
offset 5 on empty inputs. -/
theorem aggregate_pagination_witness :
    (aggregate [] [] none none none "q" 5 10).1 = [] := by
  apply (aggregate_pagination [] [] none none none "q" 5 10).2.2.1
  rw [rankedList, applyFilters_nil]
  simp [sortResults, mergeResults, addVectorResults, dedupById]

/-- C10 counterexample: an upstream failure (HTTP 500 from the external
API, or a network error) during single-paper retrieval is surfaced as the
same 404-equivalent result as a missing paper identifier — not as a
500-equivalent carrying a message — because `get_paper_by_id` catches the
raised error and returns `None`, which the route turns into a 404. -/
theorem paper_endpoint_failure_cex :
    getPaperDetailsEndpoint (.http 500 []) = .error 404 "paper not found" ∧
    getPaperDetailsEndpoint (.netError "connection refused") = .error 404 "paper not found" ∧
    getPaperDetailsEndpoint (.http 200 []) = .error 404 "paper not found" :=
  ⟨rfl, rfl, rfl⟩

/-- C10 amended: on the search path an external-API failure (network error
or non-200 status) is surfaced as a 500-equivalent carrying a message; on
the single-paper path the client catches the failure and the route
surfaces it as the same 404-equivalent used for a missing identifier. -/
theorem error_surfacing (m : String) (st : Nat) (entries secondary : List Paper)
    (va : Bool) (cat : Option String) (yf yt : Option Int) (q : String)
    (off lim : Nat) (hst : st ≠ 200) :
    searchEndpoint (.netError m) secondary va cat yf yt q off lim
        = .error 500 ("search failed: " ++ m) ∧
    searchEndpoint (.http st entries) secondary va cat yf yt q off lim
        = .error 500 ("search failed: " ++ ("ArXiv API request failed: " ++ toString st)) ∧
    getPaperDetailsEndpoint (.netError m) = .error 404 "paper not found" ∧
    getPaperDetailsEndpoint (.http st entries) = .error 404 "paper not found" := by
  refine ⟨rfl, ?_, rfl, ?_⟩
  · simp [searchEndpoint, clientSearch, hst]
  · simp [getPaperDetailsEndpoint, getPaperById, hst]

/-- Witness for `error_surfacing` at a concrete 503 response and a
concrete network error. -/
theorem error_surfacing_witness :
    searchEndpoint (.netError "boom") [] true none none none "q" 0 10
        = .error 500 ("search failed: " ++ "boom") ∧
    searchEndpoint (.http 503 []) [] true none none none "q" 0 10
        = .error 500 ("search failed: " ++ ("ArXiv API request failed: " ++ toString 503)) ∧
    getPaperDetailsEndpoint (.netError "boom") = .error 404 "paper not found" ∧
    getPaperDetailsEndpoint (.http 503 []) = .error 404 "paper not found" :=
  error_surfacing "boom" 503 [] [] true none none none "q" 0 10 (by decide)

/-- The comparison of the popularity sort is transitive. -/
lemma popularityLE_trans :
    ∀ a b c : Paper, popularityLE a b → popularityLE b c → popularityLE a c := by
  intro a b c hab hbc
  simp only [popularityLE, decide_eq_true_eq] at *
  exact le_trans hbc hab

/-- The comparison of the popularity sort is total. -/
lemma popularityLE_total : ∀ a b : Paper, popularityLE a b || popularityLE b a := by
  intro a b
  simp only [popularityLE, Bool.or_eq_true, decide_eq_true_eq]
  exact le_total (popularityScore b) (popularityScore a)

/-- The dedup loop returns, for every non-empty identifier not yet seen,
the first input record bearing it. -/
lemma dedupById_find (p : List Paper) (seen : List String) (x : String)
    (hx : x ≠ "") (hseen : x ∉ seen) :
    (dedupById p seen).find? (fun r => r.arxiv_id == x)
      = p.find? (fun r => r.arxiv_id == x) := by
  induction p generalizing seen with
  | nil => rfl
  | cons r rs ih =>
    by_cases hpx : r.arxiv_id = x
    · have hid : r.arxiv_id ≠ "" := by rw [hpx]; exact hx
      have hmem : r.arxiv_id ∉ seen := by rw [hpx]; exact hseen
      rw [dedupById, if_pos ⟨hid, hmem⟩]
      rw [List.find?_cons_of_pos _ (by simp [hpx]),
        List.find?_cons_of_pos _ (by simp [hpx])]
    · rw [@List.find?_cons_of_neg Paper (fun r => r.arxiv_id == x) r rs (by simp [hpx])]
      rw [dedupById]
      by_cases hid : r.arxiv_id = ""
      · rw [if_neg (by tauto)]
        exact ih seen hseen
      · by_cases hmem : r.arxiv_id ∈ seen
        · rw [if_neg (by tauto)]
          exact ih seen hseen
        · rw [if_pos ⟨hid, hmem⟩]
          rw [@List.find?_cons_of_neg Paper (fun r => r.arxiv_id == x) r
            (dedupById rs (r.arxiv_id :: seen)) (by simp [hpx])]
          exact ih (r.arxiv_id :: seen)
            (by simp only [List.mem_cons, not_or]
                exact ⟨fun hc => hpx hc.symm, hseen⟩)

/-- C9 counterexample: `_deduplicate_papers` drops a record lacking an
identifier entirely, while the claim requires such records to be treated
as always-unique and never merged away. -/
theorem popularity_dedup_unidentified_cex :
    ({ title := "u" } : Paper) ∉ deduplicatePapers [{ title := "u" }] ∧
    deduplicatePapers [{ title := "u" }] = [] := by
  refine ⟨?_, rfl⟩
  simp [deduplicatePapers, dedupById]

/-- C9 amended: the popularity path scores exactly as claimed and sorts
stably descending by that score; its deduplication keeps the first
occurrence of each non-empty identifier, while records without an
identifier are dropped rather than treated as always-unique. -/
theorem popularity_path_characterization (papers : List Paper) (a b : Paper) :
    (∀ r : Paper, popularityScore r = popScoreClaimed r) ∧
    sortByPopularity papers ~ papers ∧
    (sortByPopularity papers).Pairwise (fun u v => popularityScore v ≤ popularityScore u) ∧
    (popularityScore a = popularityScore b → [a, b] <+ papers →
      [a, b] <+ sortByPopularity papers) ∧
    deduplicatePapers papers <+ papers ∧
    (∀ r ∈ deduplicatePapers papers, r.arxiv_id ≠ "") ∧
    ((deduplicatePapers papers).map (fun r => r.arxiv_id)).Nodup ∧
    (∀ x : String, x ≠ "" →
      (deduplicatePapers papers).find? (fun r => r.arxiv_id == x)
        = papers.find? (fun r => r.arxiv_id == x)) := by
  refine ⟨fun r => rfl, List.mergeSort_perm _ _, ?_, ?_, dedupById_sublist _ _,
    fun r hr => (dedupById_mem _ _ _ hr).1, dedupById_ids_nodup _ _,
    fun x hx => dedupById_find _ _ _ hx (by simp)⟩
  · have h := List.sorted_mergeSort popularityLE_trans popularityLE_total papers
    exact h.imp (fun hab => by simpa [popularityLE] using hab)
  · intro heq hsub
    exact List.pair_sublist_mergeSort popularityLE_trans popularityLE_total
      (by simp [popularityLE, heq]) hsub

/-- Witness for `popularity_path_characterization`: the stability conjunct
applied to two copies of one record. -/
theorem popularity_path_characterization_witness :
    [({ arxiv_id := "x" } : Paper), { arxiv_id := "x" }]
      <+ sortByPopularity [{ arxiv_id := "x" }, { arxiv_id := "x" }] :=
  (popularity_path_characterization [{ arxiv_id := "x" }, { arxiv_id := "x" }]
    { arxiv_id := "x" } { arxiv_id := "x" }).2.2.2.1 rfl (List.Sublist.refl _)

/-- A conditional append over a list is a map over the kept elements. -/
lemma filterMap_ite {α β : Type} (P : α → Prop) [DecidablePred P] (f : α → β) (l : List α) :
    l.filterMap (fun a => if P a then some (f a) else none)
      = (l.filter (fun a => decide (P a))).map f := by
  induction l with
  | nil => rfl
  | cons a as ih =>
    by_cases h : P a <;> simp [List.filterMap_cons, List.filter_cons, h, ih]

/-- Two strictly increasing lists of naturals with the same members are
equal. -/
lemma eq_of_sorted_lt_of_mem_iff {l₁ l₂ : List Nat}
    (h₁ : l₁.Pairwise (· < ·)) (h₂ : l₂.Pairwise (· < ·))
    (hmem : ∀ a, a ∈ l₁ ↔ a ∈ l₂) : l₁ = l₂ := by
  haveI : IsAntisymm Nat (· < ·) := ⟨fun a b hab hba => ((lt_asymm hab) hba).elim⟩
  have hn₁ : l₁.Nodup := h₁.imp (fun h => Nat.ne_of_lt h)
  have hn₂ : l₂.Nodup := h₂.imp (fun h => Nat.ne_of_lt h)
  have hperm : l₁.Perm l₂ := (List.perm_ext_iff_of_nodup hn₁ hn₂).mpr hmem
  exact List.eq_of_perm_of_sorted hperm h₁ h₂

/-- The sorted distinct bracket numbers are strictly increasing. -/
lemma citationIndices_pairwise (answer : String) :
    (citationIndices answer).Pairwise (· < ·) := by
  have htrans : ∀ a b c : Nat, decide (a ≤ b) → decide (b ≤ c) → decide (a ≤ c) := by
    intro a b c hab hbc
    simp only [decide_eq_true_eq] at *
    omega
  have htotal : ∀ a b : Nat, decide (a ≤ b) || decide (b ≤ a) := by
    intro a b
    simp only [Bool.or_eq_true, decide_eq_true_eq]
    omega
  have hle := List.sorted_mergeSort htrans htotal (bracketNums answer.data).dedup
  have hnd : (citationIndices answer).Nodup :=
    (List.mergeSort_perm (bracketNums answer.data).dedup _).nodup_iff.mpr
      (List.nodup_dedup _)
  have hand := List.Pairwise.and (hle.imp (fun h => by simpa using h)) hnd
  exact hand.imp (fun h => lt_of_le_of_ne h.1 h.2)

/-- C8: citation extraction equals its specification: the set of distinct
bracketed integers of the answer, visited in ascending order, keeps each
in-range index exactly once and maps it to the citation of the
corresponding context entry; out-of-range indices are dropped. A bracketed
`[5]` against a two-element context therefore yields no citations. -/
theorem extractCitations_eq_spec (answer : String) (contexts : List Paper) :
    extractCitations answer contexts = extractCitationsSpec answer contexts := by
  unfold extractCitations extractCitationsSpec
  rw [filterMap_ite (fun i => 1 ≤ i ∧ i ≤ contexts.length)
    (fun i => buildCitation (contexts.getD (i - 1) default)) (citationIndices answer)]
  rw [filterMap_ite (fun i => i ∈ bracketNums answer.data)
    (fun i => buildCitation (contexts.getD (i - 1) default))
    ((List.range contexts.length).map (fun k => k + 1))]
  congr 1
  apply eq_of_sorted_lt_of_mem_iff
  · exact (citationIndices_pairwise answer).filter _
  · refine List.Pairwise.filter _ ?_
    refine List.Pairwise.map _ ?_ (List.sorted_lt_range contexts.length)
    intro a b hab
    omega
  · intro i
    simp only [List.mem_filter, List.mem_map, List.mem_range, decide_eq_true_eq,
      citationIndices, List.mem_mergeSort, List.mem_dedup]
    constructor
    · rintro ⟨hin, h1, h2⟩
      exact ⟨⟨i - 1, by omega, by omega⟩, hin⟩
    · rintro ⟨⟨k, hk, hki⟩, hin⟩
      exact ⟨hin, by omega, by omega⟩

end PaperSearch
